import Mathlib

/-!
Verification development for the Lead Desk outreach-plan engine
(kalyanai-leads-crm-backend).  The JavaScript source is shallowly embedded:
pure functions become Lean functions, the sqlite table of outreach steps
becomes an explicit list of rows threaded through the store operations,
clock and id generation become explicit parameters, and the asynchronous
callback protocol of the sqlite driver is collapsed to its sequential
observable outcome (the net effect on the table plus the reported result).
-/

namespace LeadDesk

/-- The fixed intent vocabulary, from the `allowedIntents` list in
src/index.js (appears both inside `normalizeIntentForStage` and in the
outreach-plan route). -/
def allowedIntents : List String :=
  ["first_contact", "post_call_summary", "proposal_followup",
   "nurture_checkin", "deal_recovery", "meeting_confirmation",
   "meeting_reminder", "invoice_gentle", "invoice_firm", "invoice_final"]

/-- The fixed channel vocabulary, from the `allowedChannels` list in the
outreach-plan route of src/index.js. -/
def allowedChannels : List String :=
  ["email", "whatsapp", "sms", "call_script"]

/-- JavaScript truthiness test on an optional string: `!x` holds for
`undefined` / `null` (modelled as `none`) and for the empty string. -/
def jsFalsy : Option String → Bool
  | none => true
  | some s => s == ""

/-- Character-by-character lowercasing; on the ASCII stage and intent
labels of this backend it agrees with the JavaScript `toLowerCase`. -/
def jsToLower (s : String) : String :=
  ⟨s.data.map Char.toLower⟩

/-- Lowercasing applied to an optional string, as the source does with
the `String(stage).toLowerCase()` expression, with the empty string for an absent stage. -/
def optLower : Option String → String
  | none => ""
  | some s => jsToLower s

/-- Embedding of `normalizeIntentForStage(stage, originalIntent,
hasAnyContact)` from src/index.js lines 481-531.  The early `return`
statements of the stage-sensitive `first_contact` block are modelled by an
intermediate `Option String`; falling through the block reaches the
`allowedIntents` membership check exactly as in the source. -/
def normalizeIntentForStage (stage : Option String)
    (originalIntent : Option String) (hasAnyContact : Bool) : String :=
  if jsFalsy originalIntent then "nurture_checkin"
  else
    let intent := optLower originalIntent
    let stageLower := optLower stage
    let firstContactCase : Option String :=
      if intent = "first_contact" then
        if stageLower = "new" then some "first_contact"
        else if stageLower = "qualified" then some "nurture_checkin"
        else if stageLower = "proposal sent" ∨ stageLower = "proposal_sent" then
          some "proposal_followup"
        else if stageLower = "won" then some "post_call_summary"
        else if stageLower = "lost" then some "deal_recovery"
        else if hasAnyContact then some "nurture_checkin"
        else none
      else none
    match firstContactCase with
    | some r => r
    | none => if intent ∈ allowedIntents then intent else "nurture_checkin"

example : normalizeIntentForStage (some "New") (some "first_contact") false
    = "first_contact" := by decide

example : normalizeIntentForStage (some "Lost") (some "first_contact") true
    = "deal_recovery" := by decide

example : normalizeIntentForStage (some "new") none true
    = "nurture_checkin" := by decide

example : normalizeIntentForStage (some "Proposal_Sent") (some "first_contact") false
    = "proposal_followup" := by decide

example : normalizeIntentForStage none (some "weird_intent") false
    = "nurture_checkin" := by decide

example : normalizeIntentForStage none (some "invoice_firm") false
    = "invoice_firm" := by decide

/-- A point in local time, standing in for a JavaScript `Date`: `day` counts
whole days from an arbitrary epoch, the remaining fields are the time of
day.  `setDate`/`setHours` arithmetic in the source acts on exactly these
components. -/
structure JsDate where
  day : Int
  hour : Int
  minute : Int
  second : Int
  ms : Int
deriving Repr, DecidableEq

/-- Embedding of `due.setHours(9, 0, 0, 0)` from src/index.js line 629. -/
def setHours9 (d : JsDate) : JsDate :=
  { d with hour := 9, minute := 0, second := 0, ms := 0 }

/-- Embedding of `due.setDate(due.getDate() + offsetDays)` from
src/index.js line 630: adding whole days (calendar rollover is absorbed by
the epoch-day representation). -/
def addDays (d : JsDate) (n : Int) : JsDate :=
  { d with day := d.day + n }

/-- Chronological key of a date, used to embed the sqlite
`datetime(dueDate)` ordering. -/
def dateKey (d : JsDate) : Int :=
  (((d.day * 24 + d.hour) * 60 + d.minute) * 60 + d.second) * 1000 + d.ms

/-- A raw candidate step, as produced by the external generator or the
stub: the JSON objects with fields offsetDays, channel, intent, goal.
`offsetDays = none` models a missing or non-numeric field
(a failing `typeof` number test); `intent`/`goal` as `none` model
absent fields. -/
structure Candidate where
  offsetDays : Option Int
  channel : String
  intent : Option String
  goal : Option String
deriving Repr, DecidableEq

/-- A step object pushed onto `stepsToInsert` in src/index.js
lines 632-640, before the store assigns `createdAt`/`completedAt`. -/
structure StepToInsert where
  id : String
  dealId : String
  dueDate : JsDate
  channel : String
  intent : String
  goal : Option String
  status : String
deriving Repr, DecidableEq

/-- A row of the `outreach_steps` table (schema in the db module):
`createdAt` is the insertion time, `completedAt` is nullable. -/
structure StoredStep where
  id : String
  dealId : String
  dueDate : JsDate
  channel : String
  intent : String
  goal : Option String
  status : String
  createdAt : Int
  completedAt : Option Int
deriving Repr, DecidableEq

/-- JavaScript `x || null` on an optional string: the empty string is
falsy and collapses to `null`. -/
def jsOrNull : Option String → Option String
  | none => none
  | some s => if s == "" then none else some s

/-- Embedding of the per-candidate intent normalization in
`buildAndStoreSteps` (src/index.js lines 601-612). -/
def normalizeCandidates (stage : Option String) (hasAnyContact : Bool)
    (cands : List Candidate) : List Candidate :=
  cands.map fun s =>
    { s with intent := some (normalizeIntentForStage stage s.intent hasAnyContact) }

/-- Embedding of the rejection tests in the `forEach` of
`buildAndStoreSteps` (src/index.js lines 614-626): a candidate survives iff
its `offsetDays` is a number within `[0, horizon]`, its channel is in the
fixed channel list and its (already normalized) intent is in the fixed
intent list. -/
def candidateOk (horizon : Int) (s : Candidate) : Bool :=
  match s.offsetDays with
  | none => false
  | some n =>
      !(n < 0) && !(n > horizon) && allowedChannels.contains s.channel &&
        (match s.intent with
         | none => false
         | some i => allowedIntents.contains i)

/-- Embedding of the step object construction in src/index.js
lines 628-640: due date anchored at 09:00 of the anchor day plus the
offset, fresh id, status pending, goal defaulted to null when falsy. -/
def scheduledStep (dealId : String) (today : JsDate) (id : String)
    (s : Candidate) : StepToInsert :=
  { id := id
    dealId := dealId
    dueDate := addDays (setHours9 today) (s.offsetDays.getD 0)
    channel := s.channel
    intent := s.intent.getD ""
    goal := jsOrNull s.goal
    status := "pending" }

/-- Mapping with the position of each element, used to hand out the
per-step `uuidv4()` values deterministically in the embedding. -/
def mapIdx {α β : Type} (f : Nat → α → β) : Nat → List α → List β
  | _, [] => []
  | i, a :: as => f i a :: mapIdx f (i + 1) as

/-- The pure part of `buildAndStoreSteps` (src/index.js lines 597-645):
normalize every candidate intent, filter by the validation tests, and
schedule each survivor.  `mkId` supplies the per-step `uuidv4()` values by
position. -/
def buildSteps (stage : Option String) (hasAnyContact : Bool) (horizon : Int)
    (dealId : String) (today : JsDate) (mkId : Nat → String)
    (cands : List Candidate) : List StepToInsert :=
  mapIdx (fun i s => scheduledStep dealId today (mkId i) s) 0
    ((normalizeCandidates stage hasAnyContact cands).filter (candidateOk horizon))

/-- The row written for one step by `createOutreachSteps` (db module
lines 613-644): status defaulted to pending when falsy, `completedAt` null exactly for
pending, `id || uuidv4()`, `createdAt` the insertion time. -/
def toStored (now : Int) (freshId : String) (s : StepToInsert) : StoredStep :=
  let statusValue := if s.status == "" then "pending" else s.status
  { id := if s.id == "" then freshId else s.id
    dealId := s.dealId
    dueDate := s.dueDate
    channel := s.channel
    intent := s.intent
    goal := jsOrNull s.goal
    status := statusValue
    createdAt := now
    completedAt := if statusValue == "pending" then none else some now }

/-- One sqlite statement issued by the batch insert. -/
inductive DbOp
  | beginTx
  | insertRow (row : StoredStep)
  | commitTx
  | rollbackTx
deriving Repr, DecidableEq

/-- Observable outcome of `createOutreachSteps`: the table afterwards,
whether the callback reported an error, and the statements issued. -/
structure InsertResult where
  table : List StoredStep
  err : Bool
  ops : List DbOp
deriving Repr, DecidableEq

/-- Embedding of `createOutreachSteps(steps, callback)` (db module
lines 603-666).  A non-array argument is `none`.  An empty or non-array
input returns success at once, before `db.serialize`, issuing no
statement.  Otherwise all inserts run inside one transaction (the
`forEach` queues every insert before any callback fires), followed by
`COMMIT` when all succeeded and by `ROLLBACK` as soon as one failed —
so on any failure the table is unchanged, and on success exactly the
batch rows are appended.  `fails i` says whether the i-th insert
statement fails. -/
def createOutreachSteps (now : Int) (fresh : Nat → String)
    (fails : Nat → Bool) (steps : Option (List StepToInsert))
    (table : List StoredStep) : InsertResult :=
  match steps with
  | none => { table := table, err := false, ops := [] }
  | some [] => { table := table, err := false, ops := [] }
  | some l =>
      let rows := mapIdx (fun i s => toStored now (fresh i) s) 0 l
      let issued := DbOp.beginTx :: rows.map DbOp.insertRow
      if (List.range l.length).any fails then
        { table := table, err := true, ops := issued ++ [DbOp.rollbackTx] }
      else
        { table := table ++ rows, err := false, ops := issued ++ [DbOp.commitTx] }

/-- Observable outcome of `updateOutreachStepStatus`: the table afterwards
and whether the driver reported `changes === 0`. -/
structure UpdateResult where
  table : List StoredStep
  notFound : Bool
deriving Repr, DecidableEq

/-- Embedding of `updateOutreachStepStatus(stepId, status, callback)`
(db module lines 668-691): one UPDATE setting `status` and `completedAt`
(`null` for pending, the current time otherwise) on every row with the
given id; `notFound` reports that no row matched.  The function reports
not-found through the result object, never through the error channel. -/
def updateOutreachStepStatus (now : Int) (stepId status : String)
    (table : List StoredStep) : UpdateResult :=
  let completedAt : Option Int := if status == "pending" then none else some now
  { table := table.map fun s =>
      if s.id == stepId then { s with status := status, completedAt := completedAt } else s
    notFound := !(table.any fun s => s.id == stepId) }

/-- Ordering used by the `ORDER BY datetime(dueDate) ASC,
datetime(createdAt) ASC` clause of `getOutreachStepsForDeal`. -/
def stepLE (a b : StoredStep) : Bool :=
  dateKey a.dueDate < dateKey b.dueDate ||
    (dateKey a.dueDate == dateKey b.dueDate && a.createdAt ≤ b.createdAt)

/-- Insertion into a list sorted by `stepLE`. -/
def insertByDue (x : StoredStep) : List StoredStep → List StoredStep
  | [] => [x]
  | y :: ys => if stepLE x y then x :: y :: ys else y :: insertByDue x ys

/-- Insertion sort by `stepLE`, embedding the ORDER BY of the step query. -/
def sortByDue (l : List StoredStep) : List StoredStep :=
  l.foldr insertByDue []

/-- Embedding of `getOutreachStepsForDeal(dealId, callback)` (db module
lines 584-601): all rows of the deal, ordered by due date then creation
time. -/
def getOutreachStepsForDeal (dealId : String) (table : List StoredStep) :
    List StoredStep :=
  sortByDue (table.filter fun s => s.dealId == dealId)

/-- The three outcomes of the `buildAndStoreSteps` promise: it resolves
with the fetched rows, resolves with `null` when nothing was accepted, or
rejects when the batch insert fails. -/
inductive BuildOutcome
  | created (rows : List StoredStep)
  | nothingKept
  | storeFailed
deriving Repr, DecidableEq

/-- Embedding of the async `buildAndStoreSteps(modelSteps)` closure
(src/index.js lines 597-661) together with the table it leaves behind:
build the accepted steps from `modelSteps || []`; if none survive resolve
`null` without touching the store; otherwise insert the batch atomically
and resolve with `getOutreachStepsForDeal(dealId)` — the full per-deal
step list, not merely the freshly inserted batch. -/
def buildAndStoreSteps (stage : Option String) (hasAnyContact : Bool)
    (horizon : Int) (dealId : String) (today : JsDate) (mkId : Nat → String)
    (now : Int) (fresh : Nat → String) (fails : Nat → Bool)
    (modelSteps : Option (List Candidate)) (table : List StoredStep) :
    BuildOutcome × List StoredStep :=
  let stepsToInsert := buildSteps stage hasAnyContact horizon dealId today mkId
    (modelSteps.getD [])
  if stepsToInsert.length = 0 then (.nothingKept, table)
  else
    let r := createOutreachSteps now fresh fails (some stepsToInsert) table
    if r.err then (.storeFailed, r.table)
    else (.created (getOutreachStepsForDeal dealId r.table), r.table)

/-- The stub candidate list of `handleStubResponse` (src/index.js
lines 664-683). -/
def stubSteps : List Candidate :=
  [ { offsetDays := some 0, channel := "email", intent := some "first_contact",
      goal := some "Send a concise intro email with value props and propose a short call." },
    { offsetDays := some 3, channel := "whatsapp", intent := some "nurture_checkin",
      goal := some "Lightly check in to see if they had a chance to review." },
    { offsetDays := some 7, channel := "call_script", intent := some "post_call_summary",
      goal := some "Call to recap fit, address questions, and agree next steps." } ]

/-- How the plan route obtained its candidate list: the OpenAI key is
absent, the generation call threw, or it returned `parsed?.steps`
(possibly absent). -/
inductive GenOutcome
  | noApiKey
  | genError
  | genOk (steps : Option (List Candidate))
deriving Repr, DecidableEq

/-- What the plan route sends back: a 200 with the steps array, or a 500. -/
inductive PlanResult
  | ok (steps : List StoredStep)
  | serverError
deriving Repr, DecidableEq

/-- Embedding of `parsedHorizon` (src/index.js line 540):
`Number.isInteger(horizonDays) && horizonDays > 0 ? horizonDays : 14`;
`none` models an absent or non-integer body field. -/
def parsedHorizonOf : Option Int → Int
  | some n => if 0 < n then n else 14
  | none => 14

/-- The response mapping the stub path applies to a `handleStubResponse`
outcome: `.then(rows => 200 with rows || [])`, `.catch(storeErr => 500)`
(src/index.js lines 689-694 and 735-740). -/
def planFromBuild : BuildOutcome × List StoredStep → PlanResult × List StoredStep
  | (.created rows, t2) => (PlanResult.ok rows, t2)
  | (.nothingKept, t2) => (PlanResult.ok [], t2)
  | (.storeFailed, t2) => (PlanResult.serverError, t2)

/-- Embedding of `handleStubResponse` (src/index.js lines 663-686)
composed with the stub-path response mapping: run
`buildAndStoreSteps(stub)` on the current table and convert the outcome
to the HTTP answer. -/
def runStubPath (stage : Option String) (hasAnyContact : Bool)
    (horizon : Int) (dealId : String) (today : JsDate) (mkId : Nat → String)
    (now : Int) (fresh : Nat → String) (fails : Nat → Bool)
    (table : List StoredStep) : PlanResult × List StoredStep :=
  planFromBuild (buildAndStoreSteps stage hasAnyContact horizon dealId today
    mkId now fresh fails (some stubSteps) table)

/-- Embedding of the plan-generation part of the `POST /ai/outreach-plan`
route (src/index.js lines 663-741), after the deal context and activity
history have been fetched.  Without an API key the stub runs directly; a
generation error is caught and degrades to the stub; with generator
output, an empty accepted list falls back to the stub, and a rejection of
the AI-path store write is caught by the same `catch` and also degrades
to the stub.  Only a stub-path store failure surfaces as a 500. -/
def generatePlan (g : GenOutcome) (stage : Option String)
    (hasAnyContact : Bool) (horizonDays : Option Int) (dealId : String)
    (today : JsDate) (mkId : Nat → String) (now : Int)
    (fresh : Nat → String) (fails : Nat → Bool) (table : List StoredStep) :
    PlanResult × List StoredStep :=
  let horizon := parsedHorizonOf horizonDays
  match g with
  | .noApiKey => runStubPath stage hasAnyContact horizon dealId today mkId now
      fresh fails table
  | .genError => runStubPath stage hasAnyContact horizon dealId today mkId now
      fresh fails table
  | .genOk cands =>
      match buildAndStoreSteps stage hasAnyContact horizon dealId today mkId now
          fresh fails cands table with
      | (.created rows, t2) => (PlanResult.ok rows, t2)
      | (.nothingKept, t2) => runStubPath stage hasAnyContact horizon dealId
          today mkId now fresh fails t2
      | (.storeFailed, t2) => runStubPath stage hasAnyContact horizon dealId
          today mkId now fresh fails t2

/-- What the `PATCH /outreach-steps/:stepId/status` route sends back. -/
inductive PatchResult
  | badRequest
  | notFoundResp
  | okResp (status : String)
deriving Repr, DecidableEq

/-- Embedding of the `PATCH /outreach-steps/:stepId/status` handler
(src/index.js lines 458-479): reject an empty id or a status outside
pending/done/skipped with a 400, otherwise run the update and map a
not-found result to a 404 and everything else to `ok: true` with the
status. -/
def patchStepStatus (now : Int) (stepId : String) (status : Option String)
    (table : List StoredStep) : PatchResult × List StoredStep :=
  match status with
  | none => (.badRequest, table)
  | some st =>
      if stepId == "" || !(["pending", "done", "skipped"].contains st) then
        (.badRequest, table)
      else
        let r := updateOutreachStepStatus now stepId st table
        if r.notFound then (.notFoundResp, r.table) else (.okResp st, r.table)

/-- The invariant of §3 of the design: a stored step is pending exactly
when it has no completion timestamp. -/
def statusInvariant (table : List StoredStep) : Prop :=
  ∀ s ∈ table, s.status = "pending" ↔ s.completedAt = none

instance (table : List StoredStep) : Decidable (statusInvariant table) := by
  unfold statusInvariant
  infer_instance

/-- Concrete anchor date used by the witnesses: day 10 at 15:30 local. -/
def demoAnchor : JsDate := { day := 10, hour := 15, minute := 30, second := 0, ms := 0 }

/-- Concrete candidate used by the witnesses. -/
def demoCand : Candidate :=
  { offsetDays := some 0, channel := "email", intent := some "nurture_checkin", goal := none }

/-- A step row persisted by an earlier plan invocation for deal d1. -/
def demoOldStep : StoredStep :=
  { id := "old", dealId := "d1", dueDate := { day := 1, hour := 9, minute := 0, second := 0, ms := 0 },
    channel := "email", intent := "first_contact", goal := none,
    status := "done", createdAt := 1, completedAt := some 1 }

/-- The row that inserting `demoCand` at `demoAnchor` produces. -/
def demoNewRow : StoredStep :=
  { id := "id1", dealId := "d1", dueDate := { day := 10, hour := 9, minute := 0, second := 0, ms := 0 },
    channel := "email", intent := "nurture_checkin", goal := none,
    status := "pending", createdAt := 100, completedAt := none }

/-- A pending step object as handed to the batch insert by the scheduler. -/
def demoInsert : StepToInsert :=
  { id := "s1", dealId := "d1", dueDate := { day := 3, hour := 9, minute := 0, second := 0, ms := 0 },
    channel := "sms", intent := "nurture_checkin", goal := none, status := "pending" }

/-- The first stub candidate after intent normalization for a stage-new deal. -/
def stubNorm0 : Candidate :=
  { offsetDays := some 0, channel := "email", intent := some "first_contact",
    goal := some "Send a concise intro email with value props and propose a short call." }

/-- The second stub candidate after intent normalization. -/
def stubNorm3 : Candidate :=
  { offsetDays := some 3, channel := "whatsapp", intent := some "nurture_checkin",
    goal := some "Lightly check in to see if they had a chance to review." }

/-- The third stub candidate after intent normalization. -/
def stubNorm7 : Candidate :=
  { offsetDays := some 7, channel := "call_script", intent := some "post_call_summary",
    goal := some "Call to recap fit, address questions, and agree next steps." }

theorem mem_mapIdx {α β : Type} {f : Nat → α → β} {y : β} :
    ∀ {i : Nat} {l : List α}, y ∈ mapIdx f i l → ∃ j a, a ∈ l ∧ y = f j a := by
  intro i l
  induction l generalizing i with
  | nil => intro h; simp [mapIdx] at h
  | cons a as ih =>
      intro h
      rcases (by simpa [mapIdx] using h : y = f i a ∨ y ∈ mapIdx f (i + 1) as) with h1 | h1
      · exact ⟨i, a, by simp, h1⟩
      · obtain ⟨j, b, hb, hy⟩ := ih h1
        exact ⟨j, b, by simp [hb], hy⟩

theorem toStored_pending_iff (now : Int) (fid : String) (s : StepToInsert) :
    (toStored now fid s).status = "pending" ↔ (toStored now fid s).completedAt = none := by
  simp only [toStored]
  by_cases hv : (if s.status == "" then "pending" else s.status) = "pending" <;> simp [hv]

/-- C10: calling the batch insert of the store with an empty list or a
non-array value reports success at once, issues no sqlite statement (in
particular opens no transaction) and leaves the table of outreach steps
unchanged. -/
theorem createOutreachSteps_empty_is_noop (now : Int) (fresh : Nat → String)
    (fails : Nat → Bool) (table : List StoredStep) :
    createOutreachSteps now fresh fails none table
      = { table := table, err := false, ops := [] } ∧
    createOutreachSteps now fresh fails (some []) table
      = { table := table, err := false, ops := [] } :=
  ⟨rfl, rfl⟩

/-- C2: if any single insert of a batch handed to `createOutreachSteps`
fails, the whole batch is rolled back: the table afterwards is exactly the
table before (zero steps of the batch are observable) and the error is
reported. -/
theorem createOutreachSteps_atomic_rollback (now : Int) (fresh : Nat → String)
    (fails : Nat → Bool) (l : List StepToInsert) (table : List StoredStep)
    (h : ∃ i, i < l.length ∧ fails i = true) :
    (createOutreachSteps now fresh fails (some l) table).table = table ∧
    (createOutreachSteps now fresh fails (some l) table).err = true := by
  obtain ⟨i, hi, hf⟩ := h
  match l with
  | [] => simp at hi
  | a :: as =>
      have hany : ((List.range (a :: as).length).any fails) = true := by
        rw [List.any_eq_true]
        exact ⟨i, List.mem_range.mpr hi, hf⟩
      simp only [createOutreachSteps, hany]
      simp

theorem createOutreachSteps_atomic_rollback_witness :
    (createOutreachSteps 100 (fun _ => "f") (fun _ => true)
        (some [demoInsert]) [demoOldStep]).table = [demoOldStep] ∧
    (createOutreachSteps 100 (fun _ => "f") (fun _ => true)
        (some [demoInsert]) [demoOldStep]).err = true :=
  createOutreachSteps_atomic_rollback 100 (fun _ => "f") (fun _ => true)
    [demoInsert] [demoOldStep] ⟨0, by decide, rfl⟩

/-- C3: the invariant `status = pending ↔ completedAt = null` holds for
every stored step immediately after any batch insert and after any status
update, assuming it held before. -/
theorem status_invariant_after_insert_and_update (now : Int)
    (fresh : Nat → String) (fails : Nat → Bool)
    (steps : Option (List StepToInsert)) (stepId newStatus : String)
    (table : List StoredStep) (h : statusInvariant table) :
    statusInvariant (createOutreachSteps now fresh fails steps table).table ∧
    statusInvariant (updateOutreachStepStatus now stepId newStatus table).table := by
  constructor
  · match steps with
    | none => simpa [createOutreachSteps] using h
    | some [] => simpa [createOutreachSteps] using h
    | some (a :: as) =>
        by_cases hany : ((List.range (a :: as).length).any fails) = true
        · have htab : (createOutreachSteps now fresh fails (some (a :: as)) table).table
              = table := by
            simp only [createOutreachSteps, hany]
            simp
          rw [htab]
          exact h
        · have hany' : ((List.range (a :: as).length).any fails) = false := by
            simpa using hany
          intro s hs
          simp only [createOutreachSteps, hany'] at hs
          have hs' : s ∈ table ∨
              s ∈ mapIdx (fun i st => toStored now (fresh i) st) 0 (a :: as) := by
            simpa [List.mem_append] using hs
          rcases hs' with hs' | hs'
          · exact h s hs'
          · obtain ⟨j, b, _, rfl⟩ := mem_mapIdx hs'
            exact toStored_pending_iff now (fresh j) b
  · intro s hs
    simp only [updateOutreachStepStatus] at hs
    rw [List.mem_map] at hs
    obtain ⟨t, ht, rfl⟩ := hs
    by_cases hid : (t.id == stepId) = true
    · by_cases hp : newStatus = "pending" <;> simp [hid, hp]
    · have hid' : (t.id == stepId) = false := by
        simpa using hid
      simpa [hid'] using h t ht

theorem status_invariant_after_insert_and_update_witness :
    statusInvariant (createOutreachSteps 100 (fun _ => "f") (fun _ => false)
        (some [demoInsert]) [demoOldStep]).table ∧
    statusInvariant (updateOutreachStepStatus 100 "old" "skipped" [demoOldStep]).table :=
  status_invariant_after_insert_and_update 100 (fun _ => "f") (fun _ => false)
    (some [demoInsert]) "old" "skipped" [demoOldStep] (by decide)

/-- C9: for an allowed status, the status update sets `completedAt` to the
current time when the new status is not pending and clears it when it is;
on an id that matches no stored step it reports the distinguishable
not-found outcome through the result (leaving the table unchanged), and
the PATCH route maps that outcome to the 404 response. -/
theorem updateStepStatus_semantics (now : Int) (stepId st : String)
    (table : List StoredStep)
    (hst : st ∈ (["pending", "done", "skipped"] : List String)) :
    (∀ s ∈ (updateOutreachStepStatus now stepId st table).table,
        s.id = stepId →
          s.status = st ∧
          s.completedAt = (if st = "pending" then none else some now)) ∧
    ((∀ s ∈ table, s.id ≠ stepId) →
        (updateOutreachStepStatus now stepId st table).notFound = true ∧
        (updateOutreachStepStatus now stepId st table).table = table ∧
        (stepId ≠ "" →
          patchStepStatus now stepId (some st) table = (.notFoundResp, table))) := by
  constructor
  · intro s hs hid
    simp only [updateOutreachStepStatus] at hs
    rw [List.mem_map] at hs
    obtain ⟨t, ht, rfl⟩ := hs
    by_cases h1 : (t.id == stepId) = true
    · by_cases hp : st = "pending" <;> simp [h1, hp]
    · have h1' : (t.id == stepId) = false := by simpa using h1
      rw [if_neg (by simp [h1'])] at hid
      exact absurd hid (by simpa using h1)
  · intro hnone
    have hfind : (table.any fun s => s.id == stepId) = false := by
      rw [List.any_eq_false]
      intro x hx
      simpa using hnone x hx
    have hnf : (updateOutreachStepStatus now stepId st table).notFound = true := by
      simp [updateOutreachStepStatus, hfind]
    have htab : (updateOutreachStepStatus now stepId st table).table = table := by
      simp only [updateOutreachStepStatus]
      have hmap : ∀ a ∈ table,
          (if a.id == stepId then ({ a with status := st, completedAt := (if st == "pending" then none else some now) } : StoredStep) else a) = a := by
        intro a ha
        exact if_neg (by simpa using hnone a ha)
      rw [List.map_congr_left hmap]
      simp
    refine ⟨hnf, htab, ?_⟩
    intro hne
    have hne' : (stepId == "") = false := by simpa using hne
    have hc : (["pending", "done", "skipped"].contains st) = true := by
      simpa [List.contains] using List.elem_iff.mpr hst
    simp [patchStepStatus, hne', hc, hnf, htab]
    intro h1 h2
    simpa [h1, h2] using hst

theorem updateStepStatus_semantics_witness :
    (updateOutreachStepStatus 5 "missing" "done" [demoOldStep]).notFound = true ∧
    (updateOutreachStepStatus 5 "missing" "done" [demoOldStep]).table = [demoOldStep] ∧
    patchStepStatus 5 "missing" (some "done") [demoOldStep]
      = (.notFoundResp, [demoOldStep]) := by
  have h := (updateStepStatus_semantics 5 "missing" "done" [demoOldStep]
    (by decide)).2 (by decide)
  exact ⟨h.1, h.2.1, h.2.2 (by decide)⟩

/-- C7: scheduling is deterministic given the anchor: the produced step is
due at 09:00:00 of the anchor day plus `offsetDays` whole days (the
original time of day of the anchor is discarded, offset 0 lands on the anchor day at
09:00), and the produced step starts pending; once stored it has
`completedAt = null`. -/
theorem scheduledStep_due_and_pending (dealId : String) (today : JsDate)
    (id : String) (c : Candidate) (n : Int) (now : Int) (fid : String) :
    (scheduledStep dealId today id { c with offsetDays := some n }).dueDate
      = { day := today.day + n, hour := 9, minute := 0, second := 0, ms := 0 } ∧
    (scheduledStep dealId today id { c with offsetDays := some n }).status
      = "pending" ∧
    (toStored now fid (scheduledStep dealId today id { c with offsetDays := some n })).status
      = "pending" ∧
    (toStored now fid (scheduledStep dealId today id { c with offsetDays := some n })).completedAt
      = none := by
  refine ⟨?_, rfl, ?_, ?_⟩
  · simp [scheduledStep, addDays, setHours9]
  · simp [toStored, scheduledStep]
  · simp [toStored, scheduledStep]

theorem jsFalsy_some_ne (s : String) (hs : s ≠ "") : jsFalsy (some s) = false := by
  simp [jsFalsy, hs]

/-- Unfolding of the normalizer on a non-empty requested intent: the
stage-sensitive `first_contact` chain followed by the enumeration check. -/
theorem normalize_unfold (st : Option String) (s : String) (c : Bool)
    (hs : s ≠ "") :
    normalizeIntentForStage st (some s) c =
      (if jsToLower s = "first_contact" then
        (if optLower st = "new" then "first_contact"
         else if optLower st = "qualified" then "nurture_checkin"
         else if optLower st = "proposal sent" ∨ optLower st = "proposal_sent" then
           "proposal_followup"
         else if optLower st = "won" then "post_call_summary"
         else if optLower st = "lost" then "deal_recovery"
         else if c then "nurture_checkin"
         else if jsToLower s ∈ allowedIntents then jsToLower s else "nurture_checkin")
       else if jsToLower s ∈ allowedIntents then jsToLower s else "nurture_checkin") := by
  have hf := jsFalsy_some_ne s hs
  have hop : optLower (some s) = jsToLower s := rfl
  by_cases h1 : jsToLower s = "first_contact"
  · by_cases g1 : optLower st = "new"
    · simp [normalizeIntentForStage, hf, hop, h1, g1]
    · by_cases g2 : optLower st = "qualified"
      · simp [normalizeIntentForStage, hf, hop, h1, g1, g2]
      · by_cases g3 : optLower st = "proposal sent" ∨ optLower st = "proposal_sent"
        · simp [normalizeIntentForStage, hf, hop, h1, g1, g2, g3]
        · by_cases g4 : optLower st = "won"
          · simp [normalizeIntentForStage, hf, hop, h1, g1, g2, g3, g4]
          · by_cases g5 : optLower st = "lost"
            · simp [normalizeIntentForStage, hf, hop, h1, g1, g2, g3, g4, g5]
            · by_cases hc : c = true
              · simp [normalizeIntentForStage, hf, hop, h1, g1, g2, g3, g4, g5, hc]
              · simp [normalizeIntentForStage, hf, hop, h1, g1, g2, g3, g4, g5, hc]
  · simp [normalizeIntentForStage, hf, hop, h1]

/-- C4: with requested intent `first_contact` the normalizer is
stage-sensitive — stage new keeps `first_contact`, qualified becomes
`nurture_checkin`, proposal sent (space- or underscore-separated, any
letter case) becomes `proposal_followup`, won becomes
`post_call_summary`, lost becomes `deal_recovery`, any other stage with
prior contact becomes `nurture_checkin` — and an absent requested intent
always yields `nurture_checkin`. -/
theorem normalize_first_contact_stage_sensitive (st : Option String) (c : Bool) :
    normalizeIntentForStage st none c = "nurture_checkin" ∧
    (optLower st = "new" →
      normalizeIntentForStage st (some "first_contact") c = "first_contact") ∧
    (optLower st = "qualified" →
      normalizeIntentForStage st (some "first_contact") c = "nurture_checkin") ∧
    (optLower st = "proposal sent" ∨ optLower st = "proposal_sent" →
      normalizeIntentForStage st (some "first_contact") c = "proposal_followup") ∧
    (optLower st = "won" →
      normalizeIntentForStage st (some "first_contact") c = "post_call_summary") ∧
    (optLower st = "lost" →
      normalizeIntentForStage st (some "first_contact") c = "deal_recovery") ∧
    (optLower st ∉
        (["new", "qualified", "proposal sent", "proposal_sent", "won", "lost"] : List String) →
      c = true →
      normalizeIntentForStage st (some "first_contact") c = "nurture_checkin") := by
  have hu := normalize_unfold st "first_contact" c (by decide)
  have hl : jsToLower "first_contact" = "first_contact" := by decide
  rw [hl] at hu
  refine ⟨rfl, ?_, ?_, ?_, ?_, ?_, ?_⟩
  · intro h; rw [hu]; simp [h]
  · intro h; rw [hu]; simp [h]
  · intro h
    rw [hu]
    rcases h with h | h <;> simp [h]
  · intro h; rw [hu]; simp [h]
  · intro h; rw [hu]; simp [h]
  · intro h hc
    rw [hu]
    simp only [List.mem_cons, List.not_mem_nil] at h
    push_neg at h
    obtain ⟨h1, h2, h3, h4, h5, h6⟩ := h
    simp [h1, h2, h3, h4, h5, h6, hc]

/-- C5: the normalizer never leaks an unrecognized intent — its result is
always in the fixed ten-member enumeration; a requested intent passes
through unchanged only if it belongs to the enumeration, and a requested
intent the code does not recognize (its lowercasing is outside the
enumeration) is coerced to `nurture_checkin`. -/
theorem normalize_result_in_enumeration (st i : Option String) (c : Bool) :
    normalizeIntentForStage st i c ∈ allowedIntents ∧
    (∀ s, i = some s → normalizeIntentForStage st i c = s → s ∈ allowedIntents) ∧
    (∀ s, i = some s → jsToLower s ∉ allowedIntents →
      normalizeIntentForStage st i c = "nurture_checkin") := by
  have hp1 : normalizeIntentForStage st i c ∈ allowedIntents := by
    cases i with
    | none =>
        have h : normalizeIntentForStage st none c = "nurture_checkin" := rfl
        rw [h]; decide
    | some s =>
        by_cases he : s = ""
        · subst he
          have h : normalizeIntentForStage st (some "") c = "nurture_checkin" := rfl
          rw [h]; decide
        · rw [normalize_unfold st s c he]
          repeat' split
          all_goals first | assumption | decide
  have hp3 : ∀ s, i = some s → jsToLower s ∉ allowedIntents →
      normalizeIntentForStage st i c = "nurture_checkin" := by
    intro s hi hni
    subst hi
    by_cases he : s = ""
    · subst he; rfl
    · have hfc : jsToLower s ≠ "first_contact" := by
        intro h
        exact hni (by rw [h]; decide)
      rw [normalize_unfold st s c he, if_neg hfc, if_neg hni]
  exact ⟨hp1, fun s hi hr => hr ▸ hp1, hp3⟩

theorem normalize_result_in_enumeration_witness :
    ("invoice_final" ∈ allowedIntents) ∧
    normalizeIntentForStage none (some "Bogus_Intent") false = "nurture_checkin" := by
  constructor
  · exact (normalize_result_in_enumeration none (some "invoice_final") false).2.1
      "invoice_final" rfl (by decide)
  · exact (normalize_result_in_enumeration none (some "Bogus_Intent") false).2.2
      "Bogus_Intent" rfl (by decide)

theorem normalize_first_contact_stage_sensitive_witness :
    normalizeIntentForStage (some "Proposal Sent") (some "first_contact") false
      = "proposal_followup" ∧
    normalizeIntentForStage (some "Discovery") (some "first_contact") true
      = "nurture_checkin" := by
  constructor
  · exact (normalize_first_contact_stage_sensitive (some "Proposal Sent") false).2.2.2.1
      (Or.inl (by decide))
  · exact (normalize_first_contact_stage_sensitive (some "Discovery") true).2.2.2.2.2.2
      (by decide) rfl

theorem length_mapIdx {α β : Type} {f : Nat → α → β} :
    ∀ {i : Nat} {l : List α}, (mapIdx f i l).length = l.length := by
  intro i l
  induction l generalizing i with
  | nil => rfl
  | cons a as ih => simp [mapIdx, ih]

theorem mem_insertByDue {x y : StoredStep} :
    ∀ {l : List StoredStep}, x ∈ insertByDue y l ↔ x = y ∨ x ∈ l := by
  intro l
  induction l with
  | nil => simp [insertByDue]
  | cons a as ih =>
      by_cases h : stepLE y a = true
      · simp [insertByDue, h]
      · have h' : stepLE y a = false := by simpa using h
        simp [insertByDue, h', ih]
        try tauto

theorem mem_sortByDue {x : StoredStep} :
    ∀ {l : List StoredStep}, x ∈ sortByDue l ↔ x ∈ l := by
  intro l
  induction l with
  | nil => simp [sortByDue]
  | cons a as ih =>
      have hfold : sortByDue (a :: as) = insertByDue a (sortByDue as) := rfl
      rw [hfold, mem_insertByDue]
      simp [ih]
      try tauto

theorem createOutreachSteps_success (now : Int) (fresh : Nat → String)
    (fails : Nat → Bool) (l : List StepToInsert) (table : List StoredStep)
    (h : (createOutreachSteps now fresh fails (some l) table).err = false) :
    (createOutreachSteps now fresh fails (some l) table).table
      = table ++ mapIdx (fun i s => toStored now (fresh i) s) 0 l := by
  match l with
  | [] => simp [createOutreachSteps, mapIdx]
  | a :: as =>
      by_cases hany : ((List.range (a :: as).length).any fails) = true
      · exfalso
        have herr : (createOutreachSteps now fresh fails (some (a :: as)) table).err = true := by
          simp only [createOutreachSteps, hany]
          simp
        rw [herr] at h
        cases h
      · have hany' : ((List.range (a :: as).length).any fails) = false := by simpa using hany
        simp only [createOutreachSteps, hany']
        simp

theorem buildSteps_dealId (stage : Option String) (hasAnyContact : Bool)
    (horizon : Int) (dealId : String) (today : JsDate) (mkId : Nat → String)
    (cands : List Candidate) :
    ∀ b ∈ buildSteps stage hasAnyContact horizon dealId today mkId cands,
      b.dealId = dealId := by
  intro b hb
  obtain ⟨j, a, _, rfl⟩ := mem_mapIdx hb
  simp [scheduledStep]

/-- C1 counterexample: with one step already stored for deal d1 by an
earlier invocation, a successful `buildAndStoreSteps` run that persists a
single new step resolves with BOTH steps — the returned list is not the
list this invocation persisted (`[demoNewRow]`), since it also contains
`demoOldStep` from the earlier batch. -/
theorem buildAndStore_returns_prior_steps_cex :
    buildAndStoreSteps (some "New") true 14 "d1" demoAnchor (fun _ => "id1") 100
        (fun _ => "f") (fun _ => false) (some [demoCand]) [demoOldStep]
      = (.created [demoOldStep, demoNewRow], [demoOldStep, demoNewRow]) ∧
    ([demoOldStep, demoNewRow] : List StoredStep) ≠ [demoNewRow] ∧
    demoOldStep ∈ ([demoOldStep, demoNewRow] : List StoredStep) := by
  refine ⟨by decide, by decide, by decide⟩

/-- C1 amended: a successful `buildAndStoreSteps` invocation that persists
a non-empty batch returns the FULL stored step list of the deal (ordered
by due date, then creation time): it contains every step of the freshly
persisted batch, but steps persisted for the same deal by earlier
invocations are included as well. -/
theorem buildAndStore_returns_full_deal_list
    (stage : Option String) (hasAnyContact : Bool) (horizon : Int)
    (dealId : String) (today : JsDate) (mkId : Nat → String) (now : Int)
    (fresh : Nat → String) (fails : Nat → Bool)
    (modelSteps : Option (List Candidate)) (table rows t2 : List StoredStep)
    (h : buildAndStoreSteps stage hasAnyContact horizon dealId today mkId now
        fresh fails modelSteps table = (.created rows, t2)) :
    rows = getOutreachStepsForDeal dealId t2 ∧
    ∃ batch, batch ≠ [] ∧ t2 = table ++ batch ∧
      ∀ r ∈ batch, r.dealId = dealId ∧ r.createdAt = now ∧ r ∈ rows := by
  simp only [buildAndStoreSteps] at h
  by_cases h0 : (buildSteps stage hasAnyContact horizon dealId today mkId
      (modelSteps.getD [])).length = 0
  · rw [if_pos h0] at h
    exact absurd h (by simp)
  · rw [if_neg h0] at h
    by_cases herr : (createOutreachSteps now fresh fails
        (some (buildSteps stage hasAnyContact horizon dealId today mkId
          (modelSteps.getD []))) table).err = true
    · rw [if_pos herr] at h
      exact absurd h (by simp)
    · rw [if_neg herr] at h
      rw [Prod.mk.injEq] at h
      obtain ⟨h1, h2⟩ := h
      have h1' : getOutreachStepsForDeal dealId
          (createOutreachSteps now fresh fails
            (some (buildSteps stage hasAnyContact horizon dealId today mkId
              (modelSteps.getD []))) table).table = rows := by
        simpa using h1
      have herr' : (createOutreachSteps now fresh fails
          (some (buildSteps stage hasAnyContact horizon dealId today mkId
            (modelSteps.getD []))) table).err = false := by
        simpa using herr
      have htab := createOutreachSteps_success now fresh fails _ table herr'
      refine ⟨by rw [← h1', h2], ?_⟩
      refine ⟨mapIdx (fun i s => toStored now (fresh i) s) 0
        (buildSteps stage hasAnyContact horizon dealId today mkId
          (modelSteps.getD [])), ?_, by rw [← h2, htab], ?_⟩
      · intro hnil
        apply h0
        have := congrArg List.length hnil
        rw [length_mapIdx] at this
        simpa using this
      · intro r hr
        obtain ⟨j, b, hb, rfl⟩ := mem_mapIdx hr
        have hdid : b.dealId = dealId :=
          buildSteps_dealId stage hasAnyContact horizon dealId today mkId _ b hb
        have hdid' : (toStored now (fresh j) b).dealId = dealId := by
          simp [toStored, hdid]
        refine ⟨hdid', by simp [toStored], ?_⟩
        rw [← h1']
        unfold getOutreachStepsForDeal
        rw [mem_sortByDue, List.mem_filter]
        constructor
        · rw [htab]
          exact List.mem_append_right table hr
        · simp [hdid']

theorem buildAndStore_returns_full_deal_list_witness :
    ([demoOldStep, demoNewRow] : List StoredStep)
        = getOutreachStepsForDeal "d1" [demoOldStep, demoNewRow] ∧
    ∃ batch, batch ≠ [] ∧
      ([demoOldStep, demoNewRow] : List StoredStep) = [demoOldStep] ++ batch ∧
      ∀ r ∈ batch, r.dealId = "d1" ∧ r.createdAt = 100 ∧
        r ∈ ([demoOldStep, demoNewRow] : List StoredStep) :=
  buildAndStore_returns_full_deal_list (some "New") true 14 "d1" demoAnchor
    (fun _ => "id1") 100 (fun _ => "f") (fun _ => false) (some [demoCand])
    [demoOldStep] [demoOldStep, demoNewRow] [demoOldStep, demoNewRow] (by decide)

/-- C6: the validation filter keeps a candidate only if it carries a
numeric `offsetDays` within `[0, horizonDays]` and a channel from the
fixed enumeration (so candidates missing the bound or the channel are
excluded), and it accepts the boundary offsets 0 and `horizonDays`. -/
theorem validator_offset_and_channel (horizon : Int) (s : Candidate) :
    (candidateOk horizon s = true →
      ∃ n, s.offsetDays = some n ∧ 0 ≤ n ∧ n ≤ horizon ∧
        s.channel ∈ allowedChannels) ∧
    (∀ n, s.offsetDays = some n → (n = 0 ∨ n = horizon) → 0 ≤ horizon →
      s.channel ∈ allowedChannels →
      (∃ i, s.intent = some i ∧ i ∈ allowedIntents) →
      candidateOk horizon s = true) := by
  constructor
  · intro hk
    cases hoff : s.offsetDays with
    | none => simp [candidateOk, hoff] at hk
    | some n =>
        simp only [candidateOk, hoff, Bool.and_eq_true, Bool.not_eq_true'] at hk
        obtain ⟨⟨⟨hn0, hn1⟩, hch⟩, _⟩ := hk
        refine ⟨n, rfl, ?_, ?_, ?_⟩
        · simpa using hn0
        · simpa using hn1
        · simpa [List.contains, List.elem_iff] using hch
  · rintro n hoff hbound hh hch ⟨i, hi, him⟩
    have hch' : (allowedChannels.contains s.channel) = true := by
      simpa [List.contains] using List.elem_iff.mpr hch
    have him' : (allowedIntents.contains i) = true := by
      simpa [List.contains] using List.elem_iff.mpr him
    rcases hbound with rfl | rfl <;>
      simp [candidateOk, hoff, hi, hch', him', hh] <;>
      exact ⟨hch, him⟩

theorem validator_offset_and_channel_witness :
    (∃ n, demoCand.offsetDays = some n ∧ 0 ≤ n ∧ n ≤ (14 : Int) ∧
      demoCand.channel ∈ allowedChannels) ∧
    candidateOk 14 demoCand = true := by
  have ht := (validator_offset_and_channel 14 demoCand).2 0 rfl (Or.inl rfl)
    (by decide) (by decide) ⟨"nurture_checkin", rfl, by decide⟩
  exact ⟨(validator_offset_and_channel 14 demoCand).1 ht, ht⟩

theorem normalize_stage_new (st : Option String) (c : Bool)
    (h : optLower st = "new") :
    normalizeIntentForStage st (some "first_contact") c = "first_contact" := by
  rw [normalize_unfold st "first_contact" c (by decide)]
  rw [show jsToLower "first_contact" = "first_contact" from by decide]
  rw [if_pos rfl, if_pos h]

theorem normalize_keeps_nc (st : Option String) (c : Bool) :
    normalizeIntentForStage st (some "nurture_checkin") c = "nurture_checkin" := by
  rw [normalize_unfold st "nurture_checkin" c (by decide)]
  rw [if_neg (by decide), if_pos (by decide)]
  decide

theorem normalize_keeps_pcs (st : Option String) (c : Bool) :
    normalizeIntentForStage st (some "post_call_summary") c = "post_call_summary" := by
  rw [normalize_unfold st "post_call_summary" c (by decide)]
  rw [if_neg (by decide), if_pos (by decide)]
  decide

theorem buildSteps_stub (stage : Option String) (c : Bool) (dealId : String)
    (today : JsDate) (mkId : Nat → String) (h : optLower stage = "new") :
    buildSteps stage c 14 dealId today mkId stubSteps =
      [scheduledStep dealId today (mkId 0) stubNorm0,
       scheduledStep dealId today (mkId 1) stubNorm3,
       scheduledStep dealId today (mkId 2) stubNorm7] := by
  have hnorm : normalizeCandidates stage c stubSteps = [stubNorm0, stubNorm3, stubNorm7] := by
    simp [normalizeCandidates, stubSteps, normalize_stage_new stage c h,
      normalize_keeps_nc, normalize_keeps_pcs, stubNorm0, stubNorm3, stubNorm7]
  have hfilt : ([stubNorm0, stubNorm3, stubNorm7].filter (candidateOk 14))
      = [stubNorm0, stubNorm3, stubNorm7] := by decide
  show mapIdx (fun i s => scheduledStep dealId today (mkId i) s) 0
      ((normalizeCandidates stage c stubSteps).filter (candidateOk 14)) = _
  rw [hnorm, hfilt]
  simp [mapIdx]

theorem buildAndStoreSteps_stub_success (stage : Option String)
    (hasAnyContact : Bool) (dealId : String) (today : JsDate)
    (mkId fresh : Nat → String) (now : Int) (fails : Nat → Bool)
    (table : List StoredStep)
    (hstage : optLower stage = "new") (hfail : ∀ i, fails i = false) :
    buildAndStoreSteps stage hasAnyContact 14 dealId today mkId now fresh fails
        (some stubSteps) table
      = (.created (getOutreachStepsForDeal dealId (table ++
          [toStored now (fresh 0) (scheduledStep dealId today (mkId 0) stubNorm0),
           toStored now (fresh 1) (scheduledStep dealId today (mkId 1) stubNorm3),
           toStored now (fresh 2) (scheduledStep dealId today (mkId 2) stubNorm7)])),
         table ++
          [toStored now (fresh 0) (scheduledStep dealId today (mkId 0) stubNorm0),
           toStored now (fresh 1) (scheduledStep dealId today (mkId 1) stubNorm3),
           toStored now (fresh 2) (scheduledStep dealId today (mkId 2) stubNorm7)]) := by
  have hb := buildSteps_stub stage hasAnyContact dealId today mkId hstage
  simp only [buildAndStoreSteps, Option.getD_some, hb]
  rw [if_neg (by simp)]
  simp only [createOutreachSteps]
  simp [mapIdx, hfail]

/-- C8: whenever the external generator is unavailable, errors, or yields
zero usable candidates after validation, `generatePlan` for a stage-new
deal with horizon 14 answers with a 200 (never an error) and persists
exactly three fallback steps: offsets 0, 3 and 7 from the anchor at
09:00, with intents `first_contact`, `nurture_checkin` and
`post_call_summary`, all pending and uncompleted. -/
theorem generatePlan_fallback_three_steps (g : GenOutcome)
    (stage : Option String) (hasAnyContact : Bool) (dealId : String)
    (today : JsDate) (mkId fresh : Nat → String) (now : Int)
    (fails : Nat → Bool) (table : List StoredStep)
    (hstage : optLower stage = "new")
    (hfail : ∀ i, fails i = false)
    (hg : g = .noApiKey ∨ g = .genError ∨
      ∃ cands, g = .genOk cands ∧
        buildSteps stage hasAnyContact 14 dealId today mkId (cands.getD []) = []) :
    ∃ r0 r3 r7 : StoredStep,
      generatePlan g stage hasAnyContact (some 14) dealId today mkId now fresh
          fails table
        = (.ok (getOutreachStepsForDeal dealId (table ++ [r0, r3, r7])),
           table ++ [r0, r3, r7]) ∧
      (r0.dueDate = addDays (setHours9 today) 0 ∧ r0.intent = "first_contact" ∧
        r0.status = "pending" ∧ r0.completedAt = none) ∧
      (r3.dueDate = addDays (setHours9 today) 3 ∧ r3.intent = "nurture_checkin" ∧
        r3.status = "pending" ∧ r3.completedAt = none) ∧
      (r7.dueDate = addDays (setHours9 today) 7 ∧ r7.intent = "post_call_summary" ∧
        r7.status = "pending" ∧ r7.completedAt = none) := by
  have hpar : parsedHorizonOf (some 14) = 14 := by decide
  have hrun : runStubPath stage hasAnyContact 14 dealId today mkId now fresh
      fails table
      = (PlanResult.ok (getOutreachStepsForDeal dealId (table ++
          [toStored now (fresh 0) (scheduledStep dealId today (mkId 0) stubNorm0),
           toStored now (fresh 1) (scheduledStep dealId today (mkId 1) stubNorm3),
           toStored now (fresh 2) (scheduledStep dealId today (mkId 2) stubNorm7)])),
         table ++
          [toStored now (fresh 0) (scheduledStep dealId today (mkId 0) stubNorm0),
           toStored now (fresh 1) (scheduledStep dealId today (mkId 1) stubNorm3),
           toStored now (fresh 2) (scheduledStep dealId today (mkId 2) stubNorm7)]) := by
    unfold runStubPath
    rw [buildAndStoreSteps_stub_success stage hasAnyContact dealId today mkId
      fresh now fails table hstage hfail]
    rfl
  refine ⟨toStored now (fresh 0) (scheduledStep dealId today (mkId 0) stubNorm0),
    toStored now (fresh 1) (scheduledStep dealId today (mkId 1) stubNorm3),
    toStored now (fresh 2) (scheduledStep dealId today (mkId 2) stubNorm7),
    ?_, ?_, ?_, ?_⟩
  · rcases hg with rfl | rfl | ⟨cands, rfl, hempty⟩
    · simp only [generatePlan, hpar]
      exact hrun
    · simp only [generatePlan, hpar]
      exact hrun
    · have hskip : buildAndStoreSteps stage hasAnyContact 14 dealId today mkId
          now fresh fails cands table = (.nothingKept, table) := by
        simp only [buildAndStoreSteps, hempty]
        simp
      simp only [generatePlan, hpar]
      rw [hskip]
      exact hrun
  · refine ⟨?_, ?_, ?_, ?_⟩ <;> simp [toStored, scheduledStep, stubNorm0]
  · refine ⟨?_, ?_, ?_, ?_⟩ <;> simp [toStored, scheduledStep, stubNorm3]
  · refine ⟨?_, ?_, ?_, ?_⟩ <;> simp [toStored, scheduledStep, stubNorm7]

theorem generatePlan_fallback_three_steps_witness :
    ∃ r0 r3 r7 : StoredStep,
      generatePlan .noApiKey (some "New") false (some 14) "d1" demoAnchor
          (fun _ => "id1") 100 (fun _ => "f") (fun _ => false) []
        = (.ok (getOutreachStepsForDeal "d1" ([] ++ [r0, r3, r7])),
           [] ++ [r0, r3, r7]) ∧
      (r0.dueDate = addDays (setHours9 demoAnchor) 0 ∧
        r0.intent = "first_contact" ∧
        r0.status = "pending" ∧ r0.completedAt = none) ∧
      (r3.dueDate = addDays (setHours9 demoAnchor) 3 ∧
        r3.intent = "nurture_checkin" ∧
        r3.status = "pending" ∧ r3.completedAt = none) ∧
      (r7.dueDate = addDays (setHours9 demoAnchor) 7 ∧
        r7.intent = "post_call_summary" ∧
        r7.status = "pending" ∧ r7.completedAt = none) :=
  generatePlan_fallback_three_steps .noApiKey (some "New") false "d1" demoAnchor
    (fun _ => "id1") (fun _ => "f") 100 (fun _ => false) [] (by decide)
    (fun _ => rfl) (Or.inl rfl)

end LeadDesk
